import Mathlib

/-!
Verification of the questionnaire extraction engine of `app/main.py`.

The development shallowly embeds the pure core of the service: the text
normalizer `clean_text`, the line classifiers `looks_like_question` and
`looks_like_answer`, the marker stripper `strip_prefixes`, the question
type inference `infer_question_type`, the docx grouping loop
`parse_docx_questions` (whose two nested `while` loops are rendered as a
single step function `docx_step` folded over the line sequence), and the
per-row csv mapper `parse_csv_questions`.

Regular expressions are rendered as explicit character-list functions.
The character classes are modelled for the repertoire the engine's
configuration and inputs exercise: whitespace is the usual ASCII
whitespace plus the non-breaking space, digits are ASCII digits, and
word characters (for the word-boundary of the Hebrew keyword pattern)
are ASCII alphanumerics, the underscore, and Hebrew letters.
-/

namespace LTG

/-- Whitespace as matched by the engine's regex patterns, together with the
non-breaking space that `clean_text` replaces explicitly. -/
def isPyWs (c : Char) : Bool :=
  c == ' ' || c == '\t' || c == '\n' || c == '\r' || c == '\x0b' || c == '\x0c' || c == '\u00A0'

/-- Splits a character list into its maximal whitespace-free words; the
accumulator holds the current word reversed. -/
def wordsAux : List Char → List Char → List (List Char)
  | acc, [] => if acc = [] then [] else [acc.reverse]
  | acc, c :: cs =>
    if isPyWs c then
      if acc = [] then wordsAux [] cs else acc.reverse :: wordsAux [] cs
    else
      wordsAux (c :: acc) cs

/-- The maximal whitespace-free words of a character list, in order. -/
def wordsOf (l : List Char) : List (List Char) := wordsAux [] l

/-- Joins words with single spaces. -/
def joinWords : List (List Char) → List Char
  | [] => []
  | [w] => w
  | w :: ws => w ++ ' ' :: joinWords ws

/-- Replacing every maximal whitespace run by one space and then trimming
leading/trailing whitespace leaves exactly the whitespace-free words joined
by single spaces. -/
def collapse_ws (l : List Char) : List Char := joinWords (wordsOf l)

/-- Model of `clean_text` (main.py lines 46-51): empty input yields the empty
string; otherwise the non-breaking spaces are replaced by spaces, whitespace
runs are collapsed to single spaces, and the ends are trimmed. -/
def clean_text (s : String) : String :=
  if s = "" then ""
  else String.mk (collapse_ws (s.data.map (fun c => if c = '\u00A0' then ' ' else c)))

/-- Model of the `if not s` guard of `clean_text` on an optional argument:
a missing (None) input also yields the empty string. -/
def clean_text_opt : Option String → String
  | none => ""
  | some s => clean_text s

/-- ASCII digit, as matched by the numbering pattern. -/
def isDigitCh (c : Char) : Bool := c.isDigit

/-- Bullet characters of the bullet pattern. -/
def isBullet (c : Char) : Bool := c == '•' || c == '-' || c == '*'

/-- Hebrew letter, the range of the Hebrew letter-marker pattern. -/
def isHebrewLetter (c : Char) : Bool := decide ('א' ≤ c) && decide (c ≤ 'ת')

/-- Match of the numbering pattern (optional whitespace, one or more digits,
a `)`/`.`/`-` delimiter, then at least one whitespace) at the start of the
character list. -/
def matchNumPat (l : List Char) : Bool :=
  let l1 := l.dropWhile isPyWs
  let ds := l1.takeWhile isDigitCh
  !ds.isEmpty &&
    (match l1.dropWhile isDigitCh with
     | d :: c :: _ => (d == ')' || d == '.' || d == '-') && isPyWs c
     | _ => false)

/-- Match of the bullet pattern (optional whitespace, a bullet character,
then at least one whitespace) at the start of the character list. -/
def matchBulletPat (l : List Char) : Bool :=
  match l.dropWhile isPyWs with
  | b :: c :: _ => isBullet b && isPyWs c
  | _ => false

/-- Match of the Hebrew letter-marker pattern (optional whitespace, a Hebrew
letter, a closing parenthesis, then at least one whitespace) at the start of
the character list. -/
def matchHebPat (l : List Char) : Bool :=
  match l.dropWhile isPyWs with
  | a :: b :: c :: _ => isHebrewLetter a && b == ')' && isPyWs c
  | _ => false

/-- Substitution of the numbering pattern by the empty string: since the
pattern is anchored at the start, this removes the matched marker (the
trailing whitespace greedily) when it matches, and is the identity
otherwise. -/
def subNumPat (l : List Char) : List Char :=
  if matchNumPat l then (((l.dropWhile isPyWs).dropWhile isDigitCh).drop 1).dropWhile isPyWs
  else l

/-- Substitution of the bullet pattern by the empty string. -/
def subBulletPat (l : List Char) : List Char :=
  if matchBulletPat l then ((l.dropWhile isPyWs).drop 1).dropWhile isPyWs
  else l

/-- Substitution of the Hebrew letter-marker pattern by the empty string. -/
def subHebPat (l : List Char) : List Char :=
  if matchHebPat l then ((l.dropWhile isPyWs).drop 2).dropWhile isPyWs
  else l

/-- True when the last character is a question mark (`t.endswith("?")`). -/
def ends_qmark (l : List Char) : Bool :=
  match l.getLast? with
  | some '?' => true
  | _ => false

/-- Match of the pattern colon-then-trailing-whitespace at the end of the
character list. -/
def ends_colon (l : List Char) : Bool :=
  match l.reverse.dropWhile isPyWs with
  | ':' :: _ => true
  | _ => false

/-- The literal Hebrew question keywords of main.py line 67. -/
def QUESTION_WORDS : List String := ["עד כמה", "באיזו מידה", "מה דעתך", "למי תצביע", "האם", "כמה"]

/-- Word character for the word boundary of the keyword pattern. -/
def isWordChar (c : Char) : Bool := c.isAlphanum || c == '_' || isHebrewLetter c

/-- A word boundary follows: the list is exhausted or starts with a non-word
character. -/
def boundaryOk (l : List Char) : Bool :=
  match l with
  | [] => true
  | c :: _ => !isWordChar c

/-- Scans for an occurrence of the keyword `kw` preceded and followed by a
word boundary; `prev` records whether the previous character was a word
character (the keywords all start and end with word characters). -/
def hasKeywordAux (kw : List Char) : Bool → List Char → Bool
  | prev, [] => !prev && kw.isEmpty
  | prev, c :: r =>
    (!prev && kw.isPrefixOf (c :: r) && boundaryOk ((c :: r).drop kw.length)) ||
    hasKeywordAux kw (isWordChar c) r

/-- Whether some configured question keyword occurs, delimited by word
boundaries on both sides. -/
def contains_keyword (l : List Char) : Bool :=
  QUESTION_WORDS.any (fun kw => hasKeywordAux kw.data false l)

/-- Body of `looks_like_question` (main.py lines 53-69) on the already
normalized text `t`. -/
def llq_core (t : String) : Bool :=
  if t.length < 3 then false
  else if ends_qmark t.data || ends_colon t.data then true
  else if (matchNumPat t.data || matchBulletPat t.data || matchHebPat t.data)
            && (t.data.contains '?' || ends_colon t.data || decide (8 ≤ t.length)) then true
  else contains_keyword t.data

/-- Model of `looks_like_question`: normalizes the line and applies the
heuristics of lines 55-69. -/
def looks_like_question (line : String) : Bool := llq_core (clean_text line)

/-- Model of `strip_prefixes` (main.py lines 71-76): applies the six marker
substitutions in the source order (numbering, bullet, Hebrew marker, then
the answer variants: bullet, numbering, Hebrew marker) and normalizes. -/
def strip_prefixes (s : String) : String :=
  clean_text (String.mk (subHebPat (subNumPat (subBulletPat (subHebPat (subBulletPat (subNumPat s.data)))))))

/-- Body of `looks_like_answer` (main.py lines 78-89) on the already
normalized text `t`. -/
def lla_core (t : String) : Bool :=
  if t.length < 1 then false
  else if matchBulletPat t.data || matchNumPat t.data || matchHebPat t.data then true
  else if decide (t.length ≤ 40) && !(looks_like_question t) && !(ends_qmark t.data) then true
  else false

/-- Model of `looks_like_answer`. -/
def looks_like_answer (line : String) : Bool := lla_core (clean_text line)

/-- Substring test on character lists, the model of Python's `in` on
strings: some suffix starts with the pattern. -/
def substringOf (kw : List Char) : List Char → Bool
  | [] => kw.isEmpty
  | c :: r => kw.isPrefixOf (c :: r) || substringOf kw r

/-- The literal multi-choice hint phrases of main.py lines 42-44. -/
def MULTI_CHOICE_HINTS : List String :=
  ["אפשר לבחור", "יותר מתשובה אחת", "מספר תשובות", "בחר/י עד", "בחרו עד", "סמן/י את כל"]

/-- Model of `infer_question_type` (main.py lines 91-99): empty answers give
"open"; otherwise a hint phrase occurring in the normalized question text as
a substring gives "multi_choice"; otherwise "single_choice". -/
def infer_question_type (question_text : String) (answers : List String) : String :=
  let qt := clean_text question_text
  if answers.isEmpty then "open"
  else if MULTI_CHOICE_HINTS.any (fun h => substringOf h.data qt.data) then "multi_choice"
  else "single_choice"

/-- An emitted question record: the dict appended at main.py lines 136-144,
with the `meta` sub-dict flattened into the `source` and `question_index`
fields. -/
structure Question where
  text : String
  type : String
  answers : List String
  source : String
  question_index : Nat
deriving DecidableEq

/-- The open-question accumulator `current_q` of `parse_docx_questions`. -/
structure CurrentQuestion where
  text : String
  answers : List String
deriving DecidableEq

/-- The mutable state of the docx grouping loop: the emitted questions and
the optional open question. -/
structure DocxState where
  questions : List Question
  current_q : Option CurrentQuestion
deriving DecidableEq

/-- The answer cleaning loop of `flush_current` (main.py lines 122-131):
strips the markers of each raw answer, drops the ones that become empty,
and drops the duplicates, while preserving the first-occurrence order.
`seen` is the set of already kept answers. -/
def clean_answers_aux : List String → List String → List String
  | _, [] => []
  | seen, a :: rest =>
    let aa := strip_prefixes a
    if aa = "" then clean_answers_aux seen rest
    else if aa ∈ seen then clean_answers_aux seen rest
    else aa :: clean_answers_aux (aa :: seen) rest

/-- Answer cleaning with an initially empty seen-set. -/
def clean_answers (answers : List String) : List String := clean_answers_aux [] answers

/-- Builds the question record emitted by `flush_current` given the open
question and the 1-based index `len(questions) + 1`. -/
def finalize_question (c : CurrentQuestion) (idx : Nat) : Question :=
  let answers_clean := clean_answers c.answers
  let qtext := strip_prefixes c.text
  { text := qtext
    type := infer_question_type qtext answers_clean
    answers := answers_clean
    source := "docx"
    question_index := idx }

/-- Model of `flush_current` (main.py lines 117-145): a no-op when no
question is open, and otherwise appends the finalized question with index
`len(questions) + 1`. -/
def flush_current (questions : List Question) : Option CurrentQuestion → List Question
  | none => questions
  | some c => questions ++ [finalize_question c (questions.length + 1)]

/-- One step of the docx grouping loop on one normalized paragraph. The two
nested `while` loops of main.py lines 147-173 process each paragraph exactly
once, with these decisions: a question-looking line flushes the open
question and opens a new one; with no open question any other line is
skipped; with an open question an answer-looking line is appended to the
raw answers; otherwise the line extends the question text when no answers
were collected yet and is dropped when answers exist. -/
def docx_step (st : DocxState) (line : String) : DocxState :=
  if looks_like_question line then
    { questions := flush_current st.questions st.current_q
      current_q := some { text := line, answers := [] } }
  else
    match st.current_q with
    | none => st
    | some c =>
      if looks_like_answer line then
        { st with current_q := some { text := c.text, answers := c.answers ++ [line] } }
      else if c.answers.isEmpty then
        { st with current_q := some { text := clean_text (c.text ++ " " ++ line), answers := c.answers } }
      else st

/-- The paragraph preprocessing of main.py lines 111-112: normalize every
paragraph text and drop the ones that became empty. -/
def cleaned_paragraphs (doc_paragraphs : List String) : List String :=
  (doc_paragraphs.map clean_text).filter (fun p => decide (p ≠ ""))

/-- Model of `parse_docx_questions` on the paragraph texts extracted by the
docx adapter (the `Document`/`io` plumbing of lines 105-112 is the external
format adapter): normalizes the paragraphs, drops the empty ones, runs the
grouping loop, and flushes the question still open at end of input. -/
def parse_docx_questions (doc_paragraphs : List String) : List Question :=
  let final := (cleaned_paragraphs doc_paragraphs).foldl docx_step { questions := [], current_q := none }
  flush_current final.questions final.current_q

/-- A csv record as handed over by the csv reader adapter: the value
selected by the `question`/`Question`/Hebrew header lookup chain and the
value selected by the `answers`/`Answers`/Hebrew header lookup chain
(main.py lines 187 and 190), both defaulting to the empty string. -/
structure CsvRow where
  question_field : String
  answers_field : String
deriving DecidableEq

/-- Model of `re.split` on the class of `;` and `|`: cuts the list at every
separator character. -/
def splitOnSep : List Char → List Char → List String
  | acc, [] => [String.mk acc.reverse]
  | acc, c :: cs =>
    if c == ';' || c == '|' then String.mk acc.reverse :: splitOnSep [] cs
    else splitOnSep (c :: acc) cs

/-- The answers-cell processing of main.py line 191: split on `;`/`|`,
normalize every piece, keep the non-empty ones. -/
def split_answers (s : String) : List String :=
  ((splitOnSep [] s.data).map clean_text).filter (fun x => decide (x ≠ ""))

/-- Model of the per-row loop of `parse_csv_questions` (main.py lines
186-197): rows with an empty normalized question cell are skipped, the rest
are mapped directly to question records with the split answers, with no
deduplication. -/
def parse_csv_questions (rows : List CsvRow) : List Question :=
  rows.foldl
    (fun out row =>
      let q := clean_text row.question_field
      if q = "" then out
      else
        let answers := split_answers row.answers_field
        out ++ [{ text := q
                  type := infer_question_type q answers
                  answers := answers
                  source := "csv"
                  question_index := out.length + 1 }])
    []

/-- The number of lines the classifier takes for question starts. -/
def countQ (ls : List String) : Nat := (ls.filter looks_like_question).length

/-- A forty-six character English prose line: too long for the short-line
answer heuristic, carrying no marker, keyword or final punctuation. -/
def C5line : String := "this is some trailing prose about the question"

/-- A long Hebrew preamble of more than forty characters. -/
def C3pre : String := "בהמשך לפניות רבות של תושבים בנושא איכות השירות העירוני בשנה האחרונה "

/-- A trailing actual question starting with the configured keyword. -/
def C3suf : String := "האם אתה מרוצה מהשירות שקיבלת?"

/-- An overlong single line: preamble followed by the keyword-led question. -/
def C3long : String := C3pre ++ C3suf

/-!
Normalizer lemmas: the words produced by `wordsAux` are non-empty and free
of whitespace, joining and re-splitting such words is the identity, and so
`clean_text` is idempotent.
-/

theorem wordsAux_mem (l : List Char) : ∀ acc : List Char,
    (∀ c ∈ acc, isPyWs c = false) →
    ∀ w ∈ wordsAux acc l, w ≠ [] ∧ ∀ c ∈ w, isPyWs c = false := by
  induction l with
  | nil =>
    intro acc hacc w hw
    by_cases hne : acc = []
    · simp [wordsAux, hne] at hw
    · simp only [wordsAux, if_neg hne, List.mem_singleton] at hw
      subst hw
      exact ⟨by simpa using hne, fun c hc => hacc c (List.mem_reverse.mp hc)⟩
  | cons c cs ih =>
    intro acc hacc w hw
    by_cases hws : isPyWs c = true
    · by_cases hne : acc = []
      · simp only [wordsAux, hws, if_true, hne, if_pos rfl] at hw
        exact ih [] (by simp) w hw
      · simp only [wordsAux, hws, if_true, if_neg hne, List.mem_cons] at hw
        rcases hw with hw | hw
        · subst hw
          exact ⟨by simpa using hne, fun d hd => hacc d (List.mem_reverse.mp hd)⟩
        · exact ih [] (by simp) w hw
    · have hws' : isPyWs c = false := by simpa using hws
      simp only [wordsAux, hws', Bool.false_eq_true, if_false] at hw
      refine ih (c :: acc) ?_ w hw
      intro d hd
      rcases List.mem_cons.mp hd with h | h
      · subst h; exact hws'
      · exact hacc d h

theorem wordsAux_word_append (w : List Char) : ∀ (acc l : List Char),
    (∀ c ∈ w, isPyWs c = false) →
    wordsAux acc (w ++ l) = wordsAux (w.reverse ++ acc) l := by
  induction w with
  | nil => intro acc l _; simp
  | cons c w' ih =>
    intro acc l h
    have hc : isPyWs c = false := h c (List.mem_cons_self c w')
    have hstep : wordsAux acc ((c :: w') ++ l) = wordsAux (c :: acc) (w' ++ l) := by
      simp [wordsAux, hc]
    rw [hstep, ih (c :: acc) l (fun d hd => h d (List.mem_cons_of_mem c hd))]
    simp [List.append_assoc]

theorem wordsAux_single (w : List Char) (hne : w ≠ [])
    (h : ∀ c ∈ w, isPyWs c = false) : wordsAux [] w = [w] := by
  have h1 := wordsAux_word_append w [] [] h
  rw [List.append_nil] at h1
  rw [h1]
  have h2 : w.reverse ≠ [] := by simpa using hne
  simp [wordsAux, h2]

theorem wordsOf_joinWords (ws : List (List Char))
    (h : ∀ w ∈ ws, w ≠ [] ∧ ∀ c ∈ w, isPyWs c = false) :
    wordsOf (joinWords ws) = ws := by
  induction ws with
  | nil => rfl
  | cons w ws ih =>
    cases ws with
    | nil =>
      have hw := h w (List.mem_cons_self w [])
      simpa [joinWords, wordsOf] using wordsAux_single w hw.1 hw.2
    | cons w' ws' =>
      have hw := h w (List.mem_cons_self w (w' :: ws'))
      have hrest : ∀ v ∈ w' :: ws', v ≠ [] ∧ ∀ c ∈ v, isPyWs c = false :=
        fun v hv => h v (List.mem_cons_of_mem w hv)
      show wordsAux [] (joinWords (w :: w' :: ws')) = w :: w' :: ws'
      have hjoin : joinWords (w :: w' :: ws') = w ++ ' ' :: joinWords (w' :: ws') := rfl
      rw [hjoin, wordsAux_word_append w [] (' ' :: joinWords (w' :: ws')) hw.2]
      have hrev : w.reverse ≠ [] := by simpa using hw.1
      have hsp : isPyWs ' ' = true := rfl
      simp only [List.append_nil, wordsAux, hsp, if_true, List.reverse_reverse]
      have := ih hrest
      rw [show wordsAux [] (joinWords (w' :: ws')) = wordsOf (joinWords (w' :: ws')) from rfl, this,
        if_neg hrev]

theorem joinWords_chars (ws : List (List Char)) :
    ∀ c ∈ joinWords ws, c = ' ' ∨ ∃ w ∈ ws, c ∈ w := by
  induction ws with
  | nil => simp [joinWords]
  | cons w ws ih =>
    cases ws with
    | nil =>
      intro c hc
      exact Or.inr ⟨w, List.mem_cons_self w [], by simpa [joinWords] using hc⟩
    | cons w' ws' =>
      intro c hc
      have hjoin : joinWords (w :: w' :: ws') = w ++ ' ' :: joinWords (w' :: ws') := rfl
      rw [hjoin] at hc
      rcases List.mem_append.mp hc with hc | hc
      · exact Or.inr ⟨w, List.mem_cons_self w (w' :: ws'), hc⟩
      · rcases List.mem_cons.mp hc with hc | hc
        · exact Or.inl hc
        · rcases ih c hc with h | ⟨v, hv, hcv⟩
          · exact Or.inl h
          · exact Or.inr ⟨v, List.mem_cons_of_mem w hv, hcv⟩

theorem collapse_ws_no_nbsp (l : List Char) : ∀ c ∈ collapse_ws l, c ≠ '\u00A0' := by
  intro c hc heq
  rcases joinWords_chars (wordsOf l) c hc with h | ⟨w, hw, hcw⟩
  · rw [heq] at h; exact absurd h (by decide)
  · have := (wordsAux_mem l [] (by simp) w hw).2 c hcw
    rw [heq] at this
    exact absurd this (by decide)

theorem map_nbsp_id (l : List Char) (h : ∀ c ∈ l, c ≠ '\u00A0') :
    l.map (fun c => if c = '\u00A0' then ' ' else c) = l := by
  induction l with
  | nil => rfl
  | cons c cs ih =>
    simp only [List.map_cons, if_neg (h c (List.mem_cons_self c cs)),
      ih (fun d hd => h d (List.mem_cons_of_mem c hd))]

theorem collapse_ws_idem (l : List Char) : collapse_ws (collapse_ws l) = collapse_ws l := by
  unfold collapse_ws
  rw [show wordsOf (joinWords (wordsOf l)) = wordsOf l from
    wordsOf_joinWords (wordsOf l) (wordsAux_mem l [] (by simp))]

theorem clean_text_collapsed (m : List Char) :
    clean_text (String.mk (collapse_ws m)) = String.mk (collapse_ws m) := by
  by_cases hy : String.mk (collapse_ws m) = ""
  · rw [clean_text, if_pos hy, hy]
  · rw [clean_text, if_neg hy]
    have hdata : (String.mk (collapse_ws m)).data = collapse_ws m := rfl
    rw [hdata, map_nbsp_id (collapse_ws m) (collapse_ws_no_nbsp m), collapse_ws_idem]

theorem clean_text_idem (s : String) : clean_text (clean_text s) = clean_text s := by
  by_cases hs : s = ""
  · rw [hs]; rfl
  · have h1 : clean_text s =
        String.mk (collapse_ws (s.data.map (fun c => if c = '\u00A0' then ' ' else c))) := by
      rw [clean_text, if_neg hs]
    rw [h1, clean_text_collapsed]

/-!
Classifier lemmas: both classifiers normalize their argument first, so they
are invariant under normalization, and a question-looking line cannot
normalize to the empty string.
-/

theorem looks_like_question_clean (s : String) :
    looks_like_question (clean_text s) = looks_like_question s := by
  unfold looks_like_question
  rw [clean_text_idem]

theorem looks_like_answer_clean (s : String) :
    looks_like_answer (clean_text s) = looks_like_answer s := by
  unfold looks_like_answer
  rw [clean_text_idem]

theorem llq_clean_ne_empty {s : String} (h : looks_like_question s = true) :
    clean_text s ≠ "" := by
  intro he
  unfold looks_like_question at h
  rw [he] at h
  exact absurd h (by decide)

theorem string_ne_empty_length {s : String} (h : s ≠ "") : 1 ≤ s.length := by
  cases s with
  | mk data =>
    cases data with
    | nil => exact absurd rfl h
    | cons c cs => simp [String.length]

/-!
Counting machinery for the flush invariant: flushing after each step grows
the emitted list by one exactly when the line is classified as a question
start, so the parse output length is the number of question-start lines.
-/

theorem parse_docx_def (ls : List String) :
    parse_docx_questions ls =
      flush_current
        ((cleaned_paragraphs ls).foldl docx_step { questions := [], current_q := none }).questions
        ((cleaned_paragraphs ls).foldl docx_step { questions := [], current_q := none }).current_q := rfl

theorem flush_current_some (qs : List Question) (c : CurrentQuestion) :
    flush_current qs (some c) = qs ++ [finalize_question c (qs.length + 1)] := rfl

theorem flush_current_length (qs : List Question) (oc : Option CurrentQuestion) :
    (flush_current qs oc).length = qs.length + (match oc with | none => 0 | some _ => 1) := by
  cases oc <;> simp [flush_current]

theorem docx_step_emitted (st : DocxState) (line : String) :
    (flush_current (docx_step st line).questions (docx_step st line).current_q).length =
      (flush_current st.questions st.current_q).length +
        (if looks_like_question line = true then 1 else 0) := by
  by_cases hq : looks_like_question line = true
  · simp [docx_step, hq, flush_current_length]
  · cases hc : st.current_q with
    | none => simp [docx_step, hq, hc]
    | some c =>
      by_cases ha : looks_like_answer line = true
      · simp [docx_step, hq, hc, ha, flush_current_length]
      · by_cases he : c.answers.isEmpty = true <;>
          simp [docx_step, hq, hc, ha, he, flush_current_length]

theorem foldl_emitted (l : List String) : ∀ st : DocxState,
    (flush_current (l.foldl docx_step st).questions (l.foldl docx_step st).current_q).length =
      (flush_current st.questions st.current_q).length + countQ l := by
  induction l with
  | nil => intro st; simp [countQ]
  | cons x l ih =>
    intro st
    rw [List.foldl_cons, ih (docx_step st x), docx_step_emitted]
    simp only [countQ, List.filter_cons]
    by_cases hx : looks_like_question x = true
    · simp [hx]; omega
    · simp [hx]

theorem cleaned_countQ (ls : List String) : countQ (cleaned_paragraphs ls) = countQ ls := by
  induction ls with
  | nil => rfl
  | cons p ls ih =>
    by_cases hp : clean_text p = ""
    · have hlq : looks_like_question p = false := by
        rw [← looks_like_question_clean p, hp]
        decide
      simp only [cleaned_paragraphs, List.map_cons, List.filter_cons] at *
      rw [if_neg (by simp [hp])]
      simp only [countQ, List.filter_cons, hlq]
      simpa [countQ] using ih
    · simp only [cleaned_paragraphs, List.map_cons, List.filter_cons] at *
      rw [if_pos (by simp [hp])]
      simp only [countQ, List.filter_cons, looks_like_question_clean p]
      by_cases hq : looks_like_question p = true
      · simpa [hq, countQ] using ih
      · simp only [Bool.not_eq_true] at hq
        simpa [hq, countQ] using ih

theorem parse_docx_length (ls : List String) :
    (parse_docx_questions ls).length = countQ ls := by
  rw [parse_docx_def, foldl_emitted]
  simp [flush_current, cleaned_countQ]

theorem cleaned_paragraphs_append (a b : List String) :
    cleaned_paragraphs (a ++ b) = cleaned_paragraphs a ++ cleaned_paragraphs b := by
  simp [cleaned_paragraphs, List.filter_append]

theorem parse_docx_append_q (ls : List String) (q : String)
    (h : looks_like_question q = true) :
    parse_docx_questions (ls ++ [q]) =
      parse_docx_questions ls ++
        [finalize_question { text := clean_text q, answers := [] } (countQ ls + 1)] := by
  have hne : clean_text q ≠ "" := llq_clean_ne_empty h
  have hone : cleaned_paragraphs [q] = [clean_text q] := by
    simp [cleaned_paragraphs, hne]
  have hq' : looks_like_question (clean_text q) = true := by
    rw [looks_like_question_clean]; exact h
  rw [parse_docx_def, cleaned_paragraphs_append, hone, List.foldl_append]
  set st := (cleaned_paragraphs ls).foldl docx_step { questions := [], current_q := none } with hst
  have hstep : [clean_text q].foldl docx_step st =
      { questions := flush_current st.questions st.current_q
        current_q := some { text := clean_text q, answers := [] } } := by
    simp [List.foldl_cons, List.foldl_nil, docx_step, hq']
  rw [hstep, parse_docx_def, ← hst]
  have hlen : (flush_current st.questions st.current_q).length = countQ ls := by
    have hfold := foldl_emitted (cleaned_paragraphs ls) { questions := [], current_q := none }
    rw [← hst] at hfold
    simpa [flush_current, cleaned_countQ] using hfold
  show flush_current (flush_current st.questions st.current_q)
      (some { text := clean_text q, answers := [] }) =
    flush_current st.questions st.current_q ++
      [finalize_question { text := clean_text q, answers := [] } (countQ ls + 1)]
  rw [flush_current_some, hlen]

/-!
Goodness machinery for the emitted answers: the answer cleaning loop of
`flush_current` produces a duplicate-free list of non-empty strings, and
every question the parse emits went through it.
-/

theorem clean_answers_aux_spec (l : List String) : ∀ seen : List String,
    (clean_answers_aux seen l).Nodup ∧
      ∀ a ∈ clean_answers_aux seen l, a ≠ "" ∧ a ∉ seen := by
  induction l with
  | nil => intro seen; simp [clean_answers_aux]
  | cons a rest ih =>
    intro seen
    by_cases h1 : strip_prefixes a = ""
    · simpa [clean_answers_aux, h1] using ih seen
    · by_cases h2 : strip_prefixes a ∈ seen
      · simpa [clean_answers_aux, h1, h2] using ih seen
      · have hrec := ih (strip_prefixes a :: seen)
        simp only [clean_answers_aux, if_neg h1, if_neg h2]
        constructor
        · refine List.nodup_cons.mpr ⟨?_, hrec.1⟩
          intro hmem
          exact (hrec.2 _ hmem).2 (List.mem_cons_self _ _)
        · intro b hb
          rcases List.mem_cons.mp hb with hb | hb
          · subst hb; exact ⟨h1, h2⟩
          · have hspec := hrec.2 b hb
            exact ⟨hspec.1, fun hbseen => hspec.2 (List.mem_cons_of_mem _ hbseen)⟩

theorem finalize_question_good (c : CurrentQuestion) (idx : Nat) :
    (finalize_question c idx).answers.Nodup ∧
      ∀ a ∈ (finalize_question c idx).answers, a ≠ "" := by
  have hspec := clean_answers_aux_spec c.answers []
  constructor
  · simpa [finalize_question, clean_answers] using hspec.1
  · intro a ha
    have hmem : a ∈ clean_answers_aux [] c.answers := by
      simpa [finalize_question, clean_answers] using ha
    exact (hspec.2 a hmem).1

theorem flush_current_good {qs : List Question} {oc : Option CurrentQuestion}
    (h : ∀ q ∈ qs, q.answers.Nodup ∧ ∀ a ∈ q.answers, a ≠ "") :
    ∀ q ∈ flush_current qs oc, q.answers.Nodup ∧ ∀ a ∈ q.answers, a ≠ "" := by
  cases oc with
  | none => simpa [flush_current] using h
  | some c =>
    intro q hq
    simp only [flush_current, List.mem_append, List.mem_singleton] at hq
    rcases hq with hq | hq
    · exact h q hq
    · subst hq; exact finalize_question_good c (qs.length + 1)

theorem docx_step_questions_cases (st : DocxState) (line : String) :
    (docx_step st line).questions = flush_current st.questions st.current_q ∨
      (docx_step st line).questions = st.questions := by
  by_cases hq : looks_like_question line = true
  · left; simp [docx_step, hq]
  · right
    cases hc : st.current_q with
    | none => simp [docx_step, hq, hc]
    | some c =>
      by_cases ha : looks_like_answer line = true
      · simp [docx_step, hq, hc, ha]
      · by_cases he : c.answers.isEmpty = true <;> simp [docx_step, hq, hc, ha, he]

theorem foldl_good (l : List String) : ∀ st : DocxState,
    (∀ q ∈ st.questions, q.answers.Nodup ∧ ∀ a ∈ q.answers, a ≠ "") →
    ∀ q ∈ (l.foldl docx_step st).questions, q.answers.Nodup ∧ ∀ a ∈ q.answers, a ≠ "" := by
  induction l with
  | nil => intro st h; simpa using h
  | cons x l ih =>
    intro st h
    rw [List.foldl_cons]
    refine ih (docx_step st x) ?_
    rcases docx_step_questions_cases st x with hcase | hcase
    · rw [hcase]; exact flush_current_good h
    · rw [hcase]; exact h

theorem parse_docx_good (ls : List String) :
    ∀ q ∈ parse_docx_questions ls, q.answers.Nodup ∧ ∀ a ∈ q.answers, a ≠ "" := by
  rw [parse_docx_def]
  exact flush_current_good (foldl_good (cleaned_paragraphs ls) _ (by simp))

/-!
Claim theorems.
-/

/-- C1: on the Scenario A lines the engine does not emit one single_choice
question with the three bulleted answers; because the bullet pattern is
among the question-start patterns and any such line of normalized length at
least eight characters passes the length catch-all, each bulleted answer
line is classified as a question start, and the engine emits four answerless
open questions. The last two conjuncts exhibit the defect: the second line
matches the answer marker pattern and is nonetheless classified as a
question start. -/
theorem C1_scenario_a_eval :
    parse_docx_questions ["1. How satisfied are you with the service?", "- Very satisfied",
        "- Satisfied", "- Not satisfied"] =
      [{ text := "How satisfied are you with the service?", type := "open", answers := [],
          source := "docx", question_index := 1 },
       { text := "Very satisfied", type := "open", answers := [], source := "docx",
          question_index := 2 },
       { text := "Satisfied", type := "open", answers := [], source := "docx",
          question_index := 3 },
       { text := "Not satisfied", type := "open", answers := [], source := "docx",
          question_index := 4 }] ∧
    matchBulletPat (clean_text ("- Very satisfied")).data = true ∧
    looks_like_question ("- Very satisfied") = true := by decide

/-- C2 counterexample: the line "1. abcdefg" matches the numbering pattern,
contains no question mark, does not end with a question mark or colon, and
contains no configured keyword, yet the classifier takes it for a question
start, because its normalized length is at least eight. -/
theorem C2_counterexample :
    matchNumPat (clean_text ("1. abcdefg")).data = true ∧
    (clean_text ("1. abcdefg")).data.contains '?' = false ∧
    ends_colon (clean_text ("1. abcdefg")).data = false ∧
    ends_qmark (clean_text ("1. abcdefg")).data = false ∧
    contains_keyword (clean_text ("1. abcdefg")).data = false ∧
    looks_like_question ("1. abcdefg") = true := by decide

/-- C2 (amended): for a line matching a numbering pattern, not ending with a
question mark or colon, containing no question mark and no configured
keyword, the classifier takes it for a question start exactly when its
normalized length is at least eight characters; numbering alone suffices for
lines of length eight or more. -/
theorem C2_amended (line : String)
    (hnum : matchNumPat (clean_text line).data = true)
    (hcontains : (clean_text line).data.contains '?' = false)
    (hcol : ends_colon (clean_text line).data = false)
    (hend : ends_qmark (clean_text line).data = false)
    (hkw : contains_keyword (clean_text line).data = false) :
    looks_like_question line = decide (8 ≤ (clean_text line).length) := by
  unfold looks_like_question llq_core
  rw [hnum, hcontains, hcol, hend, hkw]
  by_cases h3 : (clean_text line).length < 3
  · rw [if_pos h3]
    have h8 : ¬ (8 ≤ (clean_text line).length) := by omega
    simp [h8]
  · rw [if_neg h3]
    simp

/-- C2 witness: the amended theorem applied at the line "1. abcdefg". -/
theorem C2_amended_witness :
    matchNumPat (clean_text ("1. abcdefg")).data = true ∧
    looks_like_question ("1. abcdefg") = decide (8 ≤ (clean_text ("1. abcdefg")).length) :=
  ⟨by decide, C2_amended ("1. abcdefg") (by decide) (by decide) (by decide) (by decide) (by decide)⟩

/-- C3 counterexample: a single overlong line (longer than forty characters)
whose tail is a configured question keyword occurring after offset forty is
emitted with the entire line as its text: the preamble is not moved into any
context and the question text does not start at the matched keyword. -/
theorem C3_counterexample :
    parse_docx_questions [C3long] =
      [{ text := C3long, type := "open", answers := [], source := "docx", question_index := 1 }] ∧
    C3long = C3pre ++ C3suf ∧
    40 < C3pre.length ∧
    "האם" ∈ QUESTION_WORDS ∧
    "האם".data.isPrefixOf C3suf.data = true ∧
    C3long ≠ C3suf := by decide

/-- C3 (amended): when a question is finalized its text is the stripped
whole accumulated text whatever its length; the engine has no
context-splitting rules and no maximum context length, and an emitted
question carries no context component. In particular a single
question-looking line, of any length, is emitted whole. -/
theorem C3_amended (line : String) (h : looks_like_question line = true) :
    parse_docx_questions [line] =
      [{ text := strip_prefixes (clean_text line), type := "open", answers := [],
          source := "docx", question_index := 1 }] := by
  have hne : clean_text line ≠ "" := llq_clean_ne_empty h
  have hq' : looks_like_question (clean_text line) = true := by
    rw [looks_like_question_clean]; exact h
  rw [parse_docx_def]
  have hone : cleaned_paragraphs [line] = [clean_text line] := by
    simp [cleaned_paragraphs, hne]
  rw [hone]
  simp only [List.foldl_cons, List.foldl_nil]
  rw [show docx_step { questions := [], current_q := none } (clean_text line) =
      { questions := [], current_q := some { text := clean_text line, answers := [] } } by
    simp [docx_step, hq', flush_current]]
  rw [flush_current_some]
  simp [finalize_question, clean_answers, clean_answers_aux, infer_question_type]

/-- C3 witness: the amended theorem applied at the overlong keyword-tailed
line, whose normalized length exceeds forty characters. -/
theorem C3_amended_witness :
    looks_like_question C3long = true ∧
    40 < (clean_text C3long).length ∧
    parse_docx_questions [C3long] =
      [{ text := strip_prefixes (clean_text C3long), type := "open", answers := [],
          source := "docx", question_index := 1 }] :=
  ⟨by decide, by decide, C3_amended C3long (by decide)⟩

/-- C4 counterexample: the csv path splits the answers cell with no
deduplication, so a row with the cell "כן;כן" is emitted with a duplicated
answers list. -/
theorem C4_counterexample :
    (parse_csv_questions [{ question_field := "האם אתה מרוצה?", answers_field := "כן;כן" }]).map
        Question.answers = [["כן", "כן"]] ∧
    ¬ (["כן", ("כן" : String)].Nodup) := by decide

/-- C4 (amended): every question emitted by the docx path has a
duplicate-free answers list (duplicate answer lines are silently dropped at
finalization); the csv and xlsx paths split the answers cell without
deduplication and can emit duplicates. -/
theorem C4_amended (ls : List String) (q : Question)
    (hq : q ∈ parse_docx_questions ls) : q.answers.Nodup :=
  (parse_docx_good ls q hq).1

/-- C4 witness: the amended theorem applied at a docx input whose open
question receives the same answer line twice; the emitted question keeps
one copy. -/
theorem C4_amended_witness :
    ({ text := "האם אתה מרוצה?", type := "single_choice", answers := ["כן"], source := "docx",
        question_index := 1 } : Question) ∈
      parse_docx_questions ["האם אתה מרוצה?", "- כן", "- כן"] ∧
    ({ text := "האם אתה מרוצה?", type := "single_choice", answers := ["כן"], source := "docx",
        question_index := 1 } : Question).answers.Nodup :=
  ⟨by decide,
    C4_amended ["האם אתה מרוצה?", "- כן", "- כן"]
      { text := "האם אתה מרוצה?", type := "single_choice", answers := ["כן"], source := "docx",
        question_index := 1 }
      (by decide)⟩

/-- C5 counterexample: while a question is open with a non-empty answers
list, a line classified neither as a question start nor as an answer is
dropped entirely: the parse result with the trailing prose line equals the
parse result without it, and no context is recorded anywhere. -/
theorem C5_counterexample :
    looks_like_question C5line = false ∧
    looks_like_answer C5line = false ∧
    parse_docx_questions ["האם אתה מרוצה?", "- כן", C5line] =
      parse_docx_questions ["האם אתה מרוצה?", "- כן"] ∧
    parse_docx_questions ["האם אתה מרוצה?", "- כן", C5line] =
      [{ text := "האם אתה מרוצה?", type := "single_choice", answers := ["כן"], source := "docx",
          question_index := 1 }] := by decide

/-- C5 (amended): while a question is open with a non-empty answers list, a
line classified neither as a question start nor as an answer leaves the
engine state entirely unchanged: the accumulated question text is untouched
and the line is discarded (there is no context to append it to). -/
theorem C5_amended (st : DocxState) (c : CurrentQuestion) (line : String)
    (hopen : st.current_q = some c) (hans : c.answers ≠ [])
    (hnq : looks_like_question line = false) (hna : looks_like_answer line = false) :
    docx_step st line = st := by
  have he : c.answers.isEmpty = false := by
    cases hcase : c.answers with
    | nil => exact absurd hcase hans
    | cons a as => rfl
  simp [docx_step, hnq, hna, hopen, he]

/-- C5 witness: the amended theorem applied at a state with one collected
answer and the trailing prose line. -/
theorem C5_amended_witness :
    looks_like_question C5line = false ∧
    looks_like_answer C5line = false ∧
    docx_step { questions := [], current_q := some { text := "האם אתה מרוצה?", answers := ["- כן"] } }
        C5line =
      { questions := [], current_q := some { text := "האם אתה מרוצה?", answers := ["- כן"] } } :=
  ⟨by decide, by decide,
    C5_amended
      { questions := [], current_q := some { text := "האם אתה מרוצה?", answers := ["- כן"] } }
      { text := "האם אתה מרוצה?", answers := ["- כן"] } C5line rfl (by decide) (by decide)
      (by decide)⟩

/-- C6: flush-on-end-of-input. The number of emitted questions equals the
number of lines the classifier takes for question starts (so the question
open at end of input is finalized and no opened question is dropped or
finalized twice), and appending a further question-start line emits exactly
the same list extended by the newly finalized question: the flush at end of
input produces exactly what the flush on a next question start would. -/
theorem C6_flush_on_eof (ls : List String) :
    (parse_docx_questions ls).length = countQ ls ∧
    ∀ q : String, looks_like_question q = true →
      parse_docx_questions (ls ++ [q]) =
        parse_docx_questions ls ++
          [finalize_question { text := clean_text q, answers := [] } (countQ ls + 1)] :=
  ⟨parse_docx_length ls, fun q hq => parse_docx_append_q ls q hq⟩

/-- C6 witness: the theorem applied at a one-question input extended by one
further question-start line. -/
theorem C6_flush_on_eof_witness :
    looks_like_question ("מה דעתך על כך?") = true ∧
    parse_docx_questions (["האם אתה בטוח?"] ++ ["מה דעתך על כך?"]) =
      parse_docx_questions ["האם אתה בטוח?"] ++
        [finalize_question { text := clean_text ("מה דעתך על כך?"), answers := [] }
          (countQ ["האם אתה בטוח?"] + 1)] :=
  ⟨by decide, (C6_flush_on_eof ["האם אתה בטוח?"]).2 ("מה דעתך על כך?") (by decide)⟩

/-- C7 counterexample: the hint lookup happens on the normalized question
text, not on the raw question text: for the text "אפשר  לבחור" (double
space) no hint phrase is a substring of the raw text, yet the inferred type
is multi_choice, because normalization collapses the double space and makes
the hint a substring. -/
theorem C7_counterexample :
    infer_question_type ("אפשר  לבחור") ["x"] = "multi_choice" ∧
    MULTI_CHOICE_HINTS.any (fun h => substringOf h.data ("אפשר  לבחור").data) = false := by decide

/-- C7 (amended): type inference is total and returns exactly one of the
three tags: "open" exactly when the answers list is empty; otherwise
"multi_choice" exactly when some configured hint phrase is a substring of
the normalized question text; otherwise "single_choice". -/
theorem C7_amended (text : String) (answers : List String) :
    (infer_question_type text answers = "open" ∨
      infer_question_type text answers = "multi_choice" ∨
      infer_question_type text answers = "single_choice") ∧
    (infer_question_type text answers = "open" ↔ answers = []) ∧
    (infer_question_type text answers = "multi_choice" ↔
      (answers ≠ [] ∧
        MULTI_CHOICE_HINTS.any (fun h => substringOf h.data (clean_text text).data) = true)) ∧
    (infer_question_type text answers = "single_choice" ↔
      (answers ≠ [] ∧
        MULTI_CHOICE_HINTS.any (fun h => substringOf h.data (clean_text text).data) = false)) := by
  cases answers with
  | nil =>
    have hv : infer_question_type text [] = "open" := rfl
    rw [hv]
    exact ⟨Or.inl rfl, by simp,
      iff_of_false (by decide) (by simp),
      iff_of_false (by decide) (by simp)⟩
  | cons a as =>
    by_cases hh : MULTI_CHOICE_HINTS.any (fun h => substringOf h.data (clean_text text).data) = true
    · have hv : infer_question_type text (a :: as) = "multi_choice" := by
        simp [infer_question_type, hh]
      rw [hv]
      refine ⟨Or.inr (Or.inl rfl), iff_of_false (by decide) (by simp), ?_, ?_⟩
      · exact iff_of_true rfl ⟨by simp, hh⟩
      · exact iff_of_false (by decide) (fun hcon => absurd hcon.2 (by simp [hh]))
    · have hb : MULTI_CHOICE_HINTS.any (fun h => substringOf h.data (clean_text text).data) = false := by
        simpa using hh
      have hv : infer_question_type text (a :: as) = "single_choice" := by
        simp [infer_question_type, hb]
      rw [hv]
      refine ⟨Or.inr (Or.inr rfl), iff_of_false (by decide) (by simp), ?_, ?_⟩
      · exact iff_of_false (by decide) (fun hcon => absurd hcon.2 (by simp [hb]))
      · exact iff_of_true rfl ⟨by simp, hb⟩

/-- C7 witness: the amended theorem applied at a text carrying the hint
"בחרו עד" and a non-empty answers list. -/
theorem C7_amended_witness :
    infer_question_type ("בחרו עד שתי תשובות") ["א", "ב"] = "multi_choice" :=
  (C7_amended ("בחרו עד שתי תשובות") ["א", "ב"]).2.2.1.mpr ⟨by decide, by decide⟩

/-- C8: the normalizer is a pure total function, idempotent on every string,
and both the empty string and a missing (None) input yield the empty
string. -/
theorem C8_normalize_idempotent :
    (∀ x : String, clean_text (clean_text x) = clean_text x) ∧
    clean_text ("") = "" ∧ clean_text_opt none = "" :=
  ⟨clean_text_idem, rfl, rfl⟩

/-- C9: while a question is open, a line whose normalized text is non-empty,
at most forty characters long, not question-looking and not ending with a
question mark is appended to the open question's answers by the grouping
step, whether or not any answer marker pattern matches it. -/
theorem C9_short_line_recorded (st : DocxState) (c : CurrentQuestion) (line : String)
    (hopen : st.current_q = some c)
    (hne : clean_text line ≠ "")
    (hlen : (clean_text line).length ≤ 40)
    (hnq : looks_like_question line = false)
    (hqm : ends_qmark (clean_text line).data = false) :
    docx_step st line =
      { st with current_q := some { text := c.text, answers := c.answers ++ [line] } } := by
  have hans : looks_like_answer line = true := by
    unfold looks_like_answer lla_core
    have h1 : ¬ ((clean_text line).length < 1) := by
      have := string_ne_empty_length hne
      omega
    rw [if_neg h1]
    by_cases hpat :
        (matchBulletPat (clean_text line).data || matchNumPat (clean_text line).data ||
          matchHebPat (clean_text line).data) = true
    · rw [if_pos hpat]
    · rw [if_neg hpat]
      have hq' : looks_like_question (clean_text line) = false := by
        rw [looks_like_question_clean]; exact hnq
      simp [hq', hqm, hlen]
  simp [docx_step, hnq, hopen, hans]

/-- C9 witness: the theorem applied at an open question and the markerless
seven-character line "כן מאוד", which matches no answer marker pattern and
is nevertheless recorded as an answer. -/
theorem C9_short_line_recorded_witness :
    clean_text ("כן מאוד") ≠ "" ∧
    (clean_text ("כן מאוד")).length ≤ 40 ∧
    looks_like_question ("כן מאוד") = false ∧
    matchBulletPat (clean_text ("כן מאוד")).data = false ∧
    matchNumPat (clean_text ("כן מאוד")).data = false ∧
    matchHebPat (clean_text ("כן מאוד")).data = false ∧
    docx_step { questions := [], current_q := some { text := "האם אתה מרוצה?", answers := [] } }
        ("כן מאוד") =
      { questions := [],
        current_q := some { text := "האם אתה מרוצה?", answers := ["כן מאוד"] } } :=
  ⟨by decide, by decide, by decide, by decide, by decide, by decide,
    C9_short_line_recorded
      { questions := [], current_q := some { text := "האם אתה מרוצה?", answers := [] } }
      { text := "האם אתה מרוצה?", answers := [] } ("כן מאוד") rfl (by decide) (by decide)
      (by decide) (by decide)⟩

/-- C10: every answer string of every question emitted by the docx path is
non-empty: an answer whose text strips to the empty string is removed by the
finalization loop. -/
theorem C10_answers_nonempty (ls : List String) (q : Question)
    (hq : q ∈ parse_docx_questions ls) : ∀ a ∈ q.answers, a ≠ "" :=
  (parse_docx_good ls q hq).2

/-- C10 witness: the theorem applied at a concrete one-question docx input
and its single emitted answer. -/
theorem C10_answers_nonempty_witness :
    ({ text := "האם אתה מרוצה?", type := "single_choice", answers := ["לא"], source := "docx",
        question_index := 1 } : Question) ∈
      parse_docx_questions ["האם אתה מרוצה?", "- לא"] ∧
    ("לא" : String) ≠ "" :=
  ⟨by decide,
    C10_answers_nonempty ["האם אתה מרוצה?", "- לא"]
      { text := "האם אתה מרוצה?", type := "single_choice", answers := ["לא"], source := "docx",
        question_index := 1 }
      (by decide) ("לא") (by decide)⟩

end LTG
